import Mathlib

/-!
Verification of the dataset partitioning layer of `monai/apps/datasets.py`
(`MedNISTDataset` and `DecathlonDataset`): the flat-classification list
builder, the seeded deterministic section splitter, and constructor
validation.  Random draws are modelled as rationals in `[0,1)` supplied by
an abstract per-seed stream; the filesystem and the external collaborators
(download/extract, manifest loader, caching container) are modelled as
explicit data.
-/

namespace Monai

/-- A Python exception raised by the constructors. -/
inductive PyError where
  | valueError (msg : String) : PyError
  | runtimeError (msg : String) : PyError
deriving DecidableEq, Repr

/-- `os.path.join` for the simple relative-name case used by the code. -/
def pathJoin (a b : String) : String := a ++ "/" ++ b

/-- The single-quote character, used by Python `repr` of strings. -/
def sq : String := String.singleton (Char.ofNat 39)

/-- Python `repr` of a list of strings, as produced by
`list(self.resource.keys())` inside an f-string. -/
def pyReprStrList (xs : List String) : String :=
  "[" ++ String.intercalate ", " (xs.map (fun s => sq ++ s ++ sq)) ++ "]"

/-- `segStartsWith pat l` : the char list `pat` is an initial segment of `l`. -/
def segStartsWith : List Char → List Char → Bool
  | [], _ => true
  | _ :: _, [] => false
  | p :: ps, x :: xs => p == x && segStartsWith ps xs

/-- `containsSeg pat l` : `pat` occurs as a contiguous segment of `l`
(substring occurrence at the character level). -/
def containsSeg (pat : List Char) : List Char → Bool
  | [] => pat.isEmpty
  | x :: xs => segStartsWith pat (x :: xs) || containsSeg pat xs

/-- One directory entry of the dataset directory listing (`os.listdir`):
its name, whether it is a subdirectory, and — when it is — its own listing. -/
structure Entry where
  name : String
  isDir : Bool
  files : List String
deriving DecidableEq, Repr

/-- The subdirectory names of a listing, in filesystem listing order:
`(x for x in os.listdir(dataset_dir) if os.path.isdir(os.path.join(dataset_dir, x)))`. -/
def dirNamesOf (d : List Entry) : List String :=
  (d.filter (fun e => e.isDir)).map (fun e => e.name)

/-- `class_names = sorted(...)` over the subdirectory names. -/
def mednistClassNames (d : List Entry) : List String :=
  List.insertionSort (· ≤ ·) (dirNamesOf d)

/-- `os.listdir(os.path.join(dataset_dir, name))`: the listing of the named
subdirectory (directory entry names are unique in a real filesystem). -/
def listdirOf (d : List Entry) (name : String) : List String :=
  match d.find? (fun e => e.name == name) with
  | some e => e.files
  | none => []

/-- One record produced by `MedNISTDataset._generate_data_list`:
`{"image": image_files_list[i], "label": image_class[i]}`. -/
structure MedRecord where
  image : String
  label : Nat
deriving DecidableEq, Repr

/-- The candidate record sequence of `MedNISTDataset._generate_data_list`
before splitting: `class_names`/`image_files`/`num_each` are built exactly as
in the source, `image_files_list` and `image_class` are the two parallel
`extend`-built lists, and the record at position `i` pairs
`image_files_list[i]` with `image_class[i]` (the two lists always have equal
length, so the indexwise pairing is their zip). -/
def mednistCandidates (dir : String) (d : List Entry) : List MedRecord :=
  let class_names := mednistClassNames d
  let image_files := class_names.map
    (fun c => (listdirOf d c).map (fun x => pathJoin (pathJoin dir c) x))
  let num_each := image_files.map List.length
  let image_files_list := image_files.flatten
  let image_class := (num_each.enum.map (fun p => List.replicate p.2 p.1)).flatten
  (image_files_list.zip image_class).map (fun p => { image := p.1, label := p.2 })

/-- The spec-side description of the candidate list (§4.2): records grouped
by class in sorted-class order, each labelled with its class's sorted
position.  Compared with `mednistCandidates`, which follows the source. -/
def specMednistCandidates (dir : String) (d : List Entry) : List MedRecord :=
  ((mednistClassNames d).enum.map
    (fun p => (listdirOf d p.2).map
      (fun x => { image := pathJoin (pathJoin dir p.2) x, label := p.1 : MedRecord }))).flatten

/-- The error message of `MedNISTDataset._generate_data_list` for an
unsupported section. -/
def medSectionErrMsg (sec : String) : String :=
  "Unsupported section: " ++ sec ++
    ", available options are [\"training\", \"validation\", \"test\"]."

/-- One loop iteration's decision in `MedNISTDataset._generate_data_list`:
given the fresh draw `r = self.rann`, either decide whether the current
record is kept for `sec` (the `continue` tests of the source, negated), or
raise `ValueError` for an unsupported section. -/
def medStep (sec : String) (v t r : ℚ) : Except String Bool :=
  if sec = "training" then .ok (decide (¬ r < v + t))
  else if sec = "validation" then .ok (decide (¬ v ≤ r))
  else if sec = "test" then .ok (decide (¬ (r < v ∨ v + t ≤ r)))
  else .error (medSectionErrMsg sec)

/-- The split loop of `MedNISTDataset._generate_data_list` over a candidate
list: each iteration calls `self.randomize()` (drawing `R k` and advancing
the stream position) and then keeps or skips the candidate, or raises.
Returns the kept subsequence together with the final stream position. -/
def medSplitFrom (sec : String) (v t : ℚ) (R : ℕ → ℚ) :
    List α → ℕ → Except String (List α × ℕ)
  | [], k => .ok ([], k)
  | x :: xs, k =>
    match medStep sec v t (R k), medSplitFrom sec v t R xs (k + 1) with
    | .error e, _ => .error e
    | .ok _, .error e => .error e
    | .ok keep, .ok (rest, k') => .ok (if keep then x :: rest else rest, k')

/-- The random-stream state of the `Randomizable` mixin carried by an
instance: the per-instance generator `self.R` (modelled as the stream of its
future `random()` draws) and the number of draws already consumed. -/
structure RandomizableState where
  R : ℕ → ℚ
  pos : ℕ

/-- Modelled from the spec: `Randomizable.set_random_state(seed=seed)` (the
mixin is outside the reviewed file) replaces the instance's generator with a
fresh stream fully determined by the seed — "a seeded generator producing a
sequence of draws in [0,1)", "not reused or shared across instances".
`gen` maps a seed to its draw stream; the previous state is discarded. -/
def setRandomState (gen : ℤ → ℕ → ℚ) (seed : ℤ) (_prev : RandomizableState) :
    RandomizableState :=
  { R := gen seed, pos := 0 }

/-- The filesystem facts `MedNISTDataset.__init__` consults: whether
`root_dir` is a directory, whether the `MedNIST` dataset directory exists
before any download, and the dataset directory's listing. -/
structure MedWorld where
  rootIsDir : Bool
  datasetDirExists : Bool
  entries : List Entry

/-- `MedNISTDataset.__init__` followed by `_generate_data_list`: validates
`root_dir`, seeds the instance's stream, optionally invokes the
`download_and_extract` collaborator (the first component counts those
invocations; modelled from the spec, a successful invocation ensures the
dataset directory exists afterwards), checks the dataset directory, and
builds the section's record list.  `prev` is the instance's random state
before `set_random_state` overwrites it. -/
def mednistInit (gen : ℤ → ℕ → ℚ) (prev : RandomizableState) (w : MedWorld)
    (rootDir sec : String) (download : Bool) (seed : ℤ) (v t : ℚ) :
    ℕ × Except PyError (List MedRecord) :=
  if w.rootIsDir = false then
    (0, .error (.valueError "Root directory root_dir must be a directory."))
  else
    let st := setRandomState gen seed prev
    let dataset_dir := pathJoin rootDir "MedNIST"
    let extractCalls : ℕ := if download then 1 else 0
    if (w.datasetDirExists || download) = false then
      (extractCalls, .error (.runtimeError
        ("Cannot find dataset directory: " ++ dataset_dir ++
          ", please use download=True to download it.")))
    else
      (extractCalls,
        match medSplitFrom sec v t st.R (mednistCandidates dataset_dir w.entries) st.pos with
        | .error e => .error (.valueError e)
        | .ok (data, _) => .ok data)

/-- The parsed `dataset.json` manifest: a labeled `training` section and an
unlabeled `test` section. -/
structure Manifest (α : Type) where
  training : List α
  test : List α

/-- Modelled from the spec: the manifest loader
`load_decathalon_datalist(path, True, section)` (outside the reviewed file)
"parses a structured JSON dataset description into a sequence of records,
selecting a named section (training/test)"; it performs no reordering. -/
def load_decathalon_datalist (m : Manifest α) (sec : String) : List α :=
  if sec = "test" then m.test else m.training

/-- The split loop of `DecathlonDataset._generate_data_list`: one
`self.randomize()` per record, keep for `training` iff not `r < val_frac`,
keep otherwise (the loop only runs for `training`/`validation`) iff not
`r ≥ val_frac`.  Returns the kept subsequence and the final stream position. -/
def decathlonLoop (sec : String) (v : ℚ) (R : ℕ → ℚ) :
    List α → ℕ → List α × ℕ
  | [], k => ([], k)
  | x :: xs, k =>
    let keep : Bool := if sec = "training" then decide (¬ R k < v) else decide (¬ v ≤ R k)
    let res := decathlonLoop sec v R xs (k + 1)
    (if keep then x :: res.1 else res.1, res.2)

/-- `DecathlonDataset._generate_data_list`: map the requested section to a
manifest section (`training` for `training`/`validation`, `test` for
anything else), load it, and for `test` return it unmodified without any
draw; otherwise run the split loop. -/
def decathlonGenerate (sec : String) (v : ℚ) (R : ℕ → ℚ) (m : Manifest α)
    (k : ℕ) : List α × ℕ :=
  let sectionKey := if sec = "training" ∨ sec = "validation" then "training" else "test"
  let datalist := load_decathalon_datalist m sectionKey
  if sectionKey = "test" then (datalist, k)
  else decathlonLoop sec v R datalist k

/-- The keys of `DecathlonDataset.resource`, in insertion order. -/
def decathlonTasks : List String :=
  ["Task01_BrainTumour", "Task02_Heart", "Task03_Liver", "Task04_Hippocampus",
   "Task05_Prostate", "Task06_Lung", "Task07_Pancreas", "Task08_HepaticVessel",
   "Task09_Spleen", "Task10_Colon"]

/-- The `ValueError` message of `DecathlonDataset.__init__` for an
unsupported task, enumerating `list(self.resource.keys())`. -/
def unsupportedTaskMsg (task : String) : String :=
  "Unsupported task: " ++ task ++ ", available options are: " ++
    pyReprStrList decathlonTasks ++ "."

/-- The filesystem facts `DecathlonDataset.__init__` consults, together with
the parsed manifest of the task's `dataset.json`. -/
structure DecWorld (α : Type) where
  rootIsDir : Bool
  datasetDirExists : Bool
  manifest : Manifest α

/-- `DecathlonDataset.__init__` followed by `_generate_data_list`: validates
`root_dir`, seeds the instance's stream, validates `task`, optionally
invokes `download_and_extract` (counted in the first component; modelled
from the spec, success ensures the dataset directory exists), checks the
dataset directory, and builds the section's record list. -/
def decathlonInit (gen : ℤ → ℕ → ℚ) (prev : RandomizableState) (w : DecWorld α)
    (rootDir task sec : String) (download : Bool) (seed : ℤ) (v : ℚ) :
    ℕ × Except PyError (List α) :=
  if w.rootIsDir = false then
    (0, .error (.valueError "Root directory root_dir must be a directory."))
  else
    let st := setRandomState gen seed prev
    if decathlonTasks.contains task = false then
      (0, .error (.valueError (unsupportedTaskMsg task)))
    else
      let dataset_dir := pathJoin rootDir task
      let extractCalls : ℕ := if download then 1 else 0
      if (w.datasetDirExists || download) = false then
        (extractCalls, .error (.runtimeError
          ("Cannot find dataset directory: " ++ dataset_dir ++
            ", please use download=True to download it.")))
      else
        (extractCalls, .ok (decathlonGenerate sec v st.R w.manifest st.pos).1)

/-- `r` falls in none of the three sections' half-open intervals. -/
def inNoInterval (v t r : ℚ) : Bool :=
  !(decide (v + t ≤ r)) && !(decide (r < v)) && !(decide (v ≤ r ∧ r < v + t))

/-- `r` falls in two different sections' intervals at once. -/
def sectionOverlap (v t r : ℚ) : Bool :=
  (decide (v + t ≤ r) && decide (r < v)) ||
  (decide (v + t ≤ r) && decide (v ≤ r ∧ r < v + t)) ||
  (decide (r < v) && decide (v ≤ r ∧ r < v + t))

/-- `Except` success test. -/
def isOkE : Except ε α → Bool
  | .ok _ => true
  | .error _ => false

/-! ### Characterizations of the MedNIST split loop -/

lemma medStep_training (v t r : ℚ) :
    medStep "training" v t r = .ok (decide (v + t ≤ r)) := by
  simp [medStep, not_lt]

lemma medStep_validation (v t r : ℚ) :
    medStep "validation" v t r = .ok (decide (r < v)) := by
  simp [medStep, not_le]

lemma medStep_test (v t r : ℚ) :
    medStep "test" v t r = .ok (decide (v ≤ r ∧ r < v + t)) := by
  simp [medStep, not_or, not_lt, not_le]

lemma medStep_invalid (sec : String) (h1 : sec ≠ "training")
    (h2 : sec ≠ "validation") (h3 : sec ≠ "test") (v t r : ℚ) :
    medStep sec v t r = .error (medSectionErrMsg sec) := by
  simp [medStep, h1, h2, h3]

lemma medSplitFrom_training (v t : ℚ) (R : ℕ → ℚ) :
    ∀ (xs : List α) (k : ℕ),
      medSplitFrom "training" v t R xs k =
        .ok (((List.enumFrom k xs).filter (fun p => decide (v + t ≤ R p.1))).map Prod.snd,
             k + xs.length)
  | [], k => by simp [medSplitFrom]
  | x :: xs, k => by
    rw [medSplitFrom, medStep_training, medSplitFrom_training v t R xs (k + 1)]
    by_cases h : v + t ≤ R k <;>
      simp [h, List.enumFrom, List.filter_cons] <;> omega

lemma medSplitFrom_validation (v t : ℚ) (R : ℕ → ℚ) :
    ∀ (xs : List α) (k : ℕ),
      medSplitFrom "validation" v t R xs k =
        .ok (((List.enumFrom k xs).filter (fun p => decide (R p.1 < v))).map Prod.snd,
             k + xs.length)
  | [], k => by simp [medSplitFrom]
  | x :: xs, k => by
    rw [medSplitFrom, medStep_validation, medSplitFrom_validation v t R xs (k + 1)]
    by_cases h : R k < v <;>
      simp [h, List.enumFrom, List.filter_cons] <;> omega

lemma medSplitFrom_test (v t : ℚ) (R : ℕ → ℚ) :
    ∀ (xs : List α) (k : ℕ),
      medSplitFrom "test" v t R xs k =
        .ok (((List.enumFrom k xs).filter
                (fun p => decide (v ≤ R p.1 ∧ R p.1 < v + t))).map Prod.snd,
             k + xs.length)
  | [], k => by simp [medSplitFrom]
  | x :: xs, k => by
    rw [medSplitFrom, medStep_test, medSplitFrom_test v t R xs (k + 1)]
    by_cases h : v ≤ R k ∧ R k < v + t <;>
      simp [h, List.enumFrom, List.filter_cons] <;> omega

lemma medSplitFrom_invalid (sec : String) (h1 : sec ≠ "training")
    (h2 : sec ≠ "validation") (h3 : sec ≠ "test") (v t : ℚ) (R : ℕ → ℚ)
    (x : α) (xs : List α) (k : ℕ) :
    medSplitFrom sec v t R (x :: xs) k = .error (medSectionErrMsg sec) := by
  rw [medSplitFrom, medStep_invalid sec h1 h2 h3]

/-! ### Characterizations of the Decathlon split loop -/

lemma decathlonLoop_training (v : ℚ) (R : ℕ → ℚ) :
    ∀ (xs : List α) (k : ℕ),
      decathlonLoop "training" v R xs k =
        (((List.enumFrom k xs).filter (fun p => decide (v ≤ R p.1))).map Prod.snd,
         k + xs.length)
  | [], k => by simp [decathlonLoop]
  | x :: xs, k => by
    rw [decathlonLoop]
    rw [decathlonLoop_training v R xs (k + 1)]
    by_cases h : v ≤ R k <;>
      simp [h, not_lt, List.enumFrom, List.filter_cons] <;> omega

lemma decathlonLoop_validation (v : ℚ) (R : ℕ → ℚ) :
    ∀ (xs : List α) (k : ℕ),
      decathlonLoop "validation" v R xs k =
        (((List.enumFrom k xs).filter (fun p => decide (R p.1 < v))).map Prod.snd,
         k + xs.length)
  | [], k => by simp [decathlonLoop]
  | x :: xs, k => by
    rw [decathlonLoop]
    rw [decathlonLoop_validation v R xs (k + 1)]
    by_cases h : R k < v <;>
      simp [h, not_le, List.enumFrom, List.filter_cons] <;> omega

lemma decathlonGenerate_training (v : ℚ) (R : ℕ → ℚ) (m : Manifest α) (k : ℕ) :
    decathlonGenerate "training" v R m k =
      (((m.training.enumFrom k).filter (fun p => decide (v ≤ R p.1))).map Prod.snd,
       k + m.training.length) := by
  rw [decathlonGenerate]
  simp [load_decathalon_datalist, decathlonLoop_training]

lemma decathlonGenerate_validation (v : ℚ) (R : ℕ → ℚ) (m : Manifest α) (k : ℕ) :
    decathlonGenerate "validation" v R m k =
      (((m.training.enumFrom k).filter (fun p => decide (R p.1 < v))).map Prod.snd,
       k + m.training.length) := by
  rw [decathlonGenerate]
  simp [load_decathalon_datalist, decathlonLoop_validation]

lemma decathlonGenerate_other (sec : String) (h1 : sec ≠ "training")
    (h2 : sec ≠ "validation") (v : ℚ) (R : ℕ → ℚ) (m : Manifest α) (k : ℕ) :
    decathlonGenerate sec v R m k = (m.test, k) := by
  rw [decathlonGenerate]
  simp [load_decathalon_datalist, h1, h2]

/-! ### A three-way filter partition -/

/-- If for every element exactly one of three Boolean predicates holds,
the three filtered sublists together are a permutation of the list. -/
lemma filter_three_perm {p₁ p₂ p₃ : α → Bool} :
    ∀ l : List α,
      (∀ x, (p₁ x = true ∧ p₂ x = false ∧ p₃ x = false) ∨
            (p₁ x = false ∧ p₂ x = true ∧ p₃ x = false) ∨
            (p₁ x = false ∧ p₂ x = false ∧ p₃ x = true)) →
      (l.filter p₁ ++ l.filter p₂ ++ l.filter p₃).Perm l
  | [], _ => by simp
  | x :: l, h => by
    have ih := filter_three_perm l h
    rcases h x with ⟨h1, h2, h3⟩ | ⟨h1, h2, h3⟩ | ⟨h1, h2, h3⟩ <;>
      simp only [List.filter_cons, h1, h2, h3, if_pos, if_neg, Bool.false_eq_true,
        ite_true, ite_false]
    · exact ih.cons x
    · exact (List.perm_middle.append_right (l.filter p₃)).trans (ih.cons x)
    · exact List.perm_middle.trans (ih.cons x)

/-! ### The flat-classification candidate list -/

lemma zip_replicate_self (a : γ) :
    ∀ l : List β, l.zip (List.replicate l.length a) = l.map (fun x => (x, a))
  | [] => rfl
  | x :: l => by
    simp [List.replicate, zip_replicate_self a l]

/-- Zipping the concatenated files with the concatenated
`[i] * num_each[i]` label blocks tags every file with its class index. -/
lemma flatten_zip_class_labels :
    ∀ (fss : List (List β)) (k : ℕ),
      fss.flatten.zip
          ((((fss.map List.length).enumFrom k).map
            (fun p => List.replicate p.2 p.1)).flatten)
        = ((fss.enumFrom k).map (fun p => p.2.map (fun x => (x, p.1)))).flatten
  | [], _ => rfl
  | l :: fss, k => by
    have hlen : l.length = (List.replicate l.length k).length := by simp
    simp only [List.map_cons, List.enumFrom, List.flatten_cons]
    rw [List.zip_append hlen, zip_replicate_self, flatten_zip_class_labels fss (k + 1)]

lemma enumFrom_map (f : β → γ) :
    ∀ (l : List β) (k : ℕ),
      (l.map f).enumFrom k = (l.enumFrom k).map (fun p => (p.1, f p.2))
  | [], _ => rfl
  | x :: l, k => by
    simp [List.enumFrom, enumFrom_map f l (k + 1)]

/-- The source's candidate construction equals the spec's grouped,
sorted-position-labelled description. -/
lemma mednistCandidates_eq_spec (dir : String) (d : List Entry) :
    mednistCandidates dir d = specMednistCandidates dir d := by
  rw [mednistCandidates, specMednistCandidates]
  rw [List.enum, flatten_zip_class_labels, List.map_flatten]
  rw [enumFrom_map]
  refine congrArg List.flatten ?_
  simp only [List.map_map]
  congr 1
  funext p
  simp [Function.comp, List.map_map]

lemma mednistClassNames_sorted (d : List Entry) :
    List.Sorted (· ≤ ·) (mednistClassNames d) :=
  List.sorted_insertionSort _ _

lemma mednistClassNames_perm (d : List Entry) :
    (mednistClassNames d).Perm (dirNamesOf d) :=
  List.perm_insertionSort _ _

/-- The sorted class-name list only depends on the *set* of subdirectory
names, not on the filesystem's listing order. -/
lemma mednistClassNames_listing_order (d d' : List Entry) (h : d.Perm d') :
    mednistClassNames d = mednistClassNames d' := by
  refine List.eq_of_perm_of_sorted ?_ (mednistClassNames_sorted d) (mednistClassNames_sorted d')
  refine (mednistClassNames_perm d).trans (List.Perm.trans ?_ (mednistClassNames_perm d').symm)
  exact (h.filter _).map _

lemma segStartsWith_append (pat l₁ l₂ : List Char)
    (h : segStartsWith pat l₁ = true) : segStartsWith pat (l₁ ++ l₂) = true := by
  induction pat generalizing l₁ with
  | nil => rfl
  | cons p ps ih =>
    cases l₁ with
    | nil => cases h
    | cons x xs =>
      simp only [segStartsWith, Bool.and_eq_true] at h
      simp only [List.cons_append, segStartsWith, Bool.and_eq_true]
      exact ⟨h.1, ih xs h.2⟩

lemma containsSeg_append_right (pat l₁ l₂ : List Char)
    (h : containsSeg pat l₂ = true) : containsSeg pat (l₁ ++ l₂) = true := by
  induction l₁ with
  | nil => simpa using h
  | cons x xs ih =>
    simp only [List.cons_append, containsSeg, Bool.or_eq_true]
    exact Or.inr ih

lemma containsSeg_append_left (pat l₁ l₂ : List Char)
    (h : containsSeg pat l₁ = true) : containsSeg pat (l₁ ++ l₂) = true := by
  induction l₁ with
  | nil =>
    simp only [containsSeg, List.isEmpty_iff] at h
    subst h
    cases l₂ with
    | nil => rfl
    | cons y ys => simp [containsSeg, segStartsWith]
  | cons x xs ih =>
    simp only [containsSeg, Bool.or_eq_true] at h
    simp only [List.cons_append, containsSeg, Bool.or_eq_true]
    rcases h with h | h
    · exact Or.inl (by simpa using segStartsWith_append pat (x :: xs) l₂ h)
    · exact Or.inr (ih h)

/-- Concrete evaluation: subdirectories listed as `b`, `a`, `c` are sorted
to `a`, `b`, `c`. -/
lemma exampleClassNames :
    mednistClassNames
        [⟨"b", true, ["b1.png"]⟩, ⟨"a", true, ["a1.png", "a2.png"]⟩,
         ⟨"c", true, ["c1.png"]⟩] = ["a", "b", "c"] := by
  simp +decide [mednistClassNames, dirNamesOf, List.insertionSort, List.orderedInsert]

/-- Concrete evaluation of the candidate list on the `b`, `a`, `c` layout:
sorted-position labels `a:0`, `b:1`, `c:2`, grouped in sorted-class order. -/
lemma exampleCandidates :
    mednistCandidates "root"
        [⟨"b", true, ["b1.png"]⟩, ⟨"a", true, ["a1.png", "a2.png"]⟩,
         ⟨"c", true, ["c1.png"]⟩] =
      [⟨"root/a/a1.png", 0⟩, ⟨"root/a/a2.png", 0⟩, ⟨"root/b/b1.png", 1⟩,
       ⟨"root/c/c1.png", 2⟩] := by
  rw [mednistCandidates_eq_spec, specMednistCandidates, exampleClassNames]
  simp [listdirOf, List.find?, pathJoin, List.enum, List.enumFrom]

/-! ### Claim theorems -/

/-- C1 (confirmed): for every candidate sequence, draw stream (one uniform
draw per candidate in enumeration order), `val_frac` and `test_frac`, the
MedNIST splitter keeps a candidate for `training` iff `r ≥ val_frac +
test_frac`, for `validation` iff `r < val_frac`, and for `test` iff
`val_frac ≤ r < val_frac + test_frac`, and each output is the filtered
subsequence of kept records in original relative order. -/
theorem mednist_split_rule {α : Type} (xs : List α) (v t : ℚ) (R : ℕ → ℚ) :
    medSplitFrom "training" v t R xs 0 =
      .ok ((xs.enum.filter (fun p => decide (v + t ≤ R p.1))).map Prod.snd, xs.length) ∧
    medSplitFrom "validation" v t R xs 0 =
      .ok ((xs.enum.filter (fun p => decide (R p.1 < v))).map Prod.snd, xs.length) ∧
    medSplitFrom "test" v t R xs 0 =
      .ok ((xs.enum.filter (fun p => decide (v ≤ R p.1 ∧ R p.1 < v + t))).map Prod.snd,
        xs.length) := by
  refine ⟨?_, ?_, ?_⟩ <;>
    simp [List.enum, medSplitFrom_training, medSplitFrom_validation, medSplitFrom_test]

/-- C2 (confirmed): one draw is consumed per candidate regardless of whether
it is kept (the final stream position is the candidate count), and for a
fixed stream, fractions in `[0,1)` with `val_frac + test_frac < 1` and draws
in `[0,1)`, the three sections form an exhaustive, non-overlapping partition
of the candidate set: the three kept (index, record) lists concatenated are
a permutation of the full enumerated candidate list, so every candidate
lands in exactly one section. -/
theorem mednist_partition {α : Type} (xs : List α) (v t : ℚ) (R : ℕ → ℚ)
    (hv : 0 ≤ v) (ht : 0 ≤ t) (hvt : v + t < 1) (hR : ∀ i, 0 ≤ R i ∧ R i < 1) :
    medSplitFrom "training" v t R xs 0 =
      .ok ((xs.enum.filter (fun p => decide (v + t ≤ R p.1))).map Prod.snd, xs.length) ∧
    medSplitFrom "validation" v t R xs 0 =
      .ok ((xs.enum.filter (fun p => decide (R p.1 < v))).map Prod.snd, xs.length) ∧
    medSplitFrom "test" v t R xs 0 =
      .ok ((xs.enum.filter (fun p => decide (v ≤ R p.1 ∧ R p.1 < v + t))).map Prod.snd,
        xs.length) ∧
    (xs.enum.filter (fun p => decide (v + t ≤ R p.1)) ++
      xs.enum.filter (fun p => decide (R p.1 < v)) ++
      xs.enum.filter (fun p => decide (v ≤ R p.1 ∧ R p.1 < v + t))).Perm xs.enum ∧
    (xs.enum.filter (fun p => decide (v + t ≤ R p.1))).length +
      (xs.enum.filter (fun p => decide (R p.1 < v))).length +
      (xs.enum.filter (fun p => decide (v ≤ R p.1 ∧ R p.1 < v + t))).length
      = xs.length := by
  have tri : ∀ p : ℕ × α,
      ((fun q : ℕ × α => decide (v + t ≤ R q.1)) p = true ∧
        (fun q : ℕ × α => decide (R q.1 < v)) p = false ∧
        (fun q : ℕ × α => decide (v ≤ R q.1 ∧ R q.1 < v + t)) p = false) ∨
      ((fun q : ℕ × α => decide (v + t ≤ R q.1)) p = false ∧
        (fun q : ℕ × α => decide (R q.1 < v)) p = true ∧
        (fun q : ℕ × α => decide (v ≤ R q.1 ∧ R q.1 < v + t)) p = false) ∨
      ((fun q : ℕ × α => decide (v + t ≤ R q.1)) p = false ∧
        (fun q : ℕ × α => decide (R q.1 < v)) p = false ∧
        (fun q : ℕ × α => decide (v ≤ R q.1 ∧ R q.1 < v + t)) p = true) := by
    intro p
    rcases lt_or_le (R p.1) v with h | h
    · refine Or.inr (Or.inl ⟨by simp; linarith, by simp [h], by simp; intro h2; linarith⟩)
    · rcases lt_or_le (R p.1) (v + t) with h2 | h2
      · exact Or.inr (Or.inr ⟨by simp; linarith, by simp [not_lt.mpr h], by simp [h, h2]⟩)
      · exact Or.inl ⟨by simp [h2], by simp [not_lt.mpr h], by simp; intro; linarith⟩
  have hperm := filter_three_perm xs.enum tri
  refine ⟨?_, ?_, ?_, hperm, ?_⟩
  · simp [List.enum, medSplitFrom_training]
  · simp [List.enum, medSplitFrom_validation]
  · simp [List.enum, medSplitFrom_test]
  · have hlen := hperm.length_eq
    simp only [List.length_append, List.enum_length] at hlen
    omega

/-- Witness for C2 at a concrete input: three candidates, fractions 1/4,
constant draw 1/2 (kept for `training` since `1/2 ≥ 1/4 + 1/4`). -/
theorem mednist_partition_witness :
    medSplitFrom "training" (1/4) (1/4) (fun _ => (1 : ℚ)/2) ["a", "b", "c"] 0 =
      .ok (["a", "b", "c"], 3) := by
  have H := mednist_partition ["a", "b", "c"] (1/4) (1/4) (fun _ => (1 : ℚ)/2)
    (by norm_num) (by norm_num) (by norm_num) (fun i => ⟨by norm_num, by norm_num⟩)
  rw [H.1]
  norm_num [List.enum, List.enumFrom, List.filter_cons]

/-- C3 (confirmed): for every manifest, `val_frac` and draw stream, the
Decathlon splitter keeps a labeled record for `training` iff `r ≥ val_frac`
and for `validation` iff `r < val_frac` (one draw per labeled record, in
order); requesting `test` bypasses the draw entirely (final stream position
still 0) and returns the manifest's unlabeled test section unmodified. -/
theorem decathlon_split_rule {α : Type} (m : Manifest α) (v : ℚ) (R : ℕ → ℚ) :
    decathlonGenerate "training" v R m 0 =
      ((m.training.enum.filter (fun p => decide (v ≤ R p.1))).map Prod.snd,
        m.training.length) ∧
    decathlonGenerate "validation" v R m 0 =
      ((m.training.enum.filter (fun p => decide (R p.1 < v))).map Prod.snd,
        m.training.length) ∧
    decathlonGenerate "test" v R m 0 = (m.test, 0) := by
  refine ⟨?_, ?_, ?_⟩
  · simpa [List.enum] using decathlonGenerate_training v R m 0
  · simpa [List.enum] using decathlonGenerate_validation v R m 0
  · exact decathlonGenerate_other "test" (by decide) (by decide) v R m 0

/-- C4 (confirmed): construction is a function of the seed, the directory
contents, the fractions and the section only — the random state an instance
held before `set_random_state` (in particular anything left over from
constructing another instance) is discarded, so two constructions with
equal parameters yield identical record sequences and never perturb each
other's draw sequences. -/
theorem construction_deterministic {α : Type}
    (gen : ℤ → ℕ → ℚ) (prev₁ prev₂ : RandomizableState)
    (w : MedWorld) (w' : DecWorld α) (rootDir task sec : String)
    (download : Bool) (seed : ℤ) (v t : ℚ) :
    mednistInit gen prev₁ w rootDir sec download seed v t =
      mednistInit gen prev₂ w rootDir sec download seed v t ∧
    decathlonInit gen prev₁ w' rootDir task sec download seed v =
      decathlonInit gen prev₂ w' rootDir task sec download seed v :=
  ⟨rfl, rfl⟩

/-- C10 (confirmed): the Decathlon section argument is never validated —
any section outside training/validation is silently treated as `test`:
construction succeeds and returns the manifest's test list, with no random
draw consumed. -/
theorem decathlon_section_unvalidated {α : Type} (sec : String)
    (h1 : sec ≠ "training") (h2 : sec ≠ "validation")
    (gen : ℤ → ℕ → ℚ) (prev : RandomizableState) (w : DecWorld α)
    (rootDir task : String) (download : Bool) (seed : ℤ) (v : ℚ)
    (hroot : w.rootIsDir = true) (htask : decathlonTasks.contains task = true)
    (hdir : (w.datasetDirExists || download) = true) :
    decathlonInit gen prev w rootDir task sec download seed v =
      ((if download then 1 else 0), .ok w.manifest.test) ∧
    decathlonGenerate sec v (gen seed) w.manifest 0 = (w.manifest.test, 0) := by
  constructor
  · have hmem : task ∈ decathlonTasks := by simpa using htask
    rw [decathlonInit]
    simp [hroot, hmem, hdir, setRandomState, decathlonGenerate_other sec h1 h2]
  · exact decathlonGenerate_other sec h1 h2 v (gen seed) w.manifest 0

/-- Witness for C10: section `"foo"` on a valid world yields the manifest's
test list without error and without touching the stream position. -/
theorem decathlon_section_unvalidated_witness :
    decathlonInit (fun _ _ => 0) ⟨fun _ => 0, 0⟩
        (⟨true, true, ⟨["tr"], ["te"]⟩⟩ : DecWorld String)
        "root" "Task02_Heart" "foo" false 0 (1/5) = (0, .ok ["te"]) ∧
    decathlonGenerate "foo" (1/5) (fun _ => (0 : ℚ))
        (⟨["tr"], ["te"]⟩ : Manifest String) 0 = (["te"], 0) :=
  have H := decathlon_section_unvalidated "foo" (by decide) (by decide)
    (fun _ _ => 0) ⟨fun _ => 0, 0⟩ (⟨true, true, ⟨["tr"], ["te"]⟩⟩ : DecWorld String)
    "root" "Task02_Heart" false 0 (1/5) rfl (by decide) rfl
  ⟨H.1, H.2⟩

/-- C7 (confirmed): the flat-classification builder sorts the class
subdirectory names, labels every file with its class's sorted position, and
emits the records grouped by class in sorted-class order; the sorted class
assignment does not depend on the filesystem's listing order; on
subdirectories `b`, `a`, `c` the labels are `a:0`, `b:1`, `c:2`. -/
theorem mednist_list_builder (dir : String) (d d' : List Entry) (h : d.Perm d') :
    mednistCandidates dir d = specMednistCandidates dir d ∧
    List.Sorted (· ≤ ·) (mednistClassNames d) ∧
    (mednistClassNames d).Perm (dirNamesOf d) ∧
    mednistClassNames d = mednistClassNames d' ∧
    mednistClassNames
        [⟨"b", true, ["b1.png"]⟩, ⟨"a", true, ["a1.png", "a2.png"]⟩,
         ⟨"c", true, ["c1.png"]⟩] = ["a", "b", "c"] ∧
    mednistCandidates "root"
        [⟨"b", true, ["b1.png"]⟩, ⟨"a", true, ["a1.png", "a2.png"]⟩,
         ⟨"c", true, ["c1.png"]⟩] =
      [⟨"root/a/a1.png", 0⟩, ⟨"root/a/a2.png", 0⟩, ⟨"root/b/b1.png", 1⟩,
       ⟨"root/c/c1.png", 2⟩] :=
  ⟨mednistCandidates_eq_spec dir d, mednistClassNames_sorted d,
   mednistClassNames_perm d, mednistClassNames_listing_order d d' h,
   exampleClassNames, exampleCandidates⟩

/-- C5 counterexample: a construction with section `"foo"` (not one of
training/validation/test) that raises no error — DecathlonDataset never
validates the section (it silently falls back to the manifest's test list),
and MedNISTDataset does not even reach the section check when the candidate
list is empty. -/
theorem section_error_cex :
    (decathlonInit (fun _ _ => 0) ⟨fun _ => 0, 0⟩
        (⟨true, true, ⟨["tr"], ["te"]⟩⟩ : DecWorld String)
        "root" "Task02_Heart" "foo" false 0 (1/5)).2 = .ok ["te"] ∧
    (mednistInit (fun _ _ => 0) ⟨fun _ => 0, 0⟩ (⟨true, true, []⟩ : MedWorld)
        "root" "foo" false 0 (1/10) (1/10)).2 = .ok [] := by
  constructor
  · rw [decathlonInit]
    simp [setRandomState, decathlonGenerate_other "foo" (by decide) (by decide),
      decathlonTasks]
  · rw [mednistInit]
    simp [setRandomState, mednistCandidates, mednistClassNames, dirNamesOf,
      List.insertionSort, medSplitFrom]

/-- C5 amended (for the part that survives): only MedNISTDataset validates
the section, inside the per-candidate split loop, so an unsupported section
raises `ValueError` at construction exactly when at least one candidate
record exists. -/
theorem mednist_section_error (gen : ℤ → ℕ → ℚ) (prev : RandomizableState)
    (w : MedWorld) (rootDir sec : String) (download : Bool) (seed : ℤ) (v t : ℚ)
    (h1 : sec ≠ "training") (h2 : sec ≠ "validation") (h3 : sec ≠ "test")
    (hroot : w.rootIsDir = true) (hdir : (w.datasetDirExists || download) = true)
    (y : MedRecord) (ys : List MedRecord)
    (hcand : mednistCandidates (pathJoin rootDir "MedNIST") w.entries = y :: ys) :
    (mednistInit gen prev w rootDir sec download seed v t).2 =
      .error (.valueError (medSectionErrMsg sec)) := by
  rw [mednistInit]
  simp [hroot, hdir, setRandomState, hcand, medSplitFrom_invalid sec h1 h2 h3]

/-- Witness for C5's amended theorem: section `"foo"` with one candidate
file raises the `ValueError` with the source's message. -/
theorem mednist_section_error_witness :
    (mednistInit (fun _ _ => 0) ⟨fun _ => 0, 0⟩
        (⟨true, true, [⟨"AbdomenCT", true, ["000000.jpeg"]⟩]⟩ : MedWorld)
        "root" "foo" false 0 (1/10) (1/10)).2 =
      .error (.valueError (medSectionErrMsg "foo")) :=
  mednist_section_error (fun _ _ => 0) ⟨fun _ => 0, 0⟩
    (⟨true, true, [⟨"AbdomenCT", true, ["000000.jpeg"]⟩]⟩ : MedWorld)
    "root" "foo" false 0 (1/10) (1/10)
    (by decide) (by decide) (by decide) rfl rfl
    ⟨"root/MedNIST/AbdomenCT/000000.jpeg", 0⟩ []
    (by rw [mednistCandidates_eq_spec, specMednistCandidates]
        simp +decide [mednistClassNames, dirNamesOf, List.insertionSort,
          List.orderedInsert, listdirOf, List.find?, pathJoin, List.enum,
          List.enumFrom])

/-- C6 (confirmed): a non-directory root raises `ValueError` for both
datasets; an unrecognized Decathlon task raises `ValueError` whose message
enumerates (contains, as substrings) every valid task; `download=False`
with a missing dataset directory raises `RuntimeError` before any
list-building. -/
theorem constructor_validation {α : Type} (gen : ℤ → ℕ → ℚ)
    (prev : RandomizableState) (w : MedWorld) (w' : DecWorld α)
    (rootDir task sec : String) (download : Bool) (seed : ℤ) (v t : ℚ) :
    (w.rootIsDir = false →
      mednistInit gen prev w rootDir sec download seed v t =
        (0, .error (.valueError "Root directory root_dir must be a directory."))) ∧
    (w'.rootIsDir = false →
      decathlonInit gen prev w' rootDir task sec download seed v =
        (0, .error (.valueError "Root directory root_dir must be a directory."))) ∧
    (w'.rootIsDir = true → decathlonTasks.contains task = false →
      decathlonInit gen prev w' rootDir task sec download seed v =
        (0, .error (.valueError (unsupportedTaskMsg task))) ∧
      decathlonTasks.all
        (fun k => containsSeg k.data (unsupportedTaskMsg task).data) = true) ∧
    (w.rootIsDir = true → w.datasetDirExists = false →
      mednistInit gen prev w rootDir sec false seed v t =
        (0, .error (.runtimeError ("Cannot find dataset directory: " ++
          pathJoin rootDir "MedNIST" ++ ", please use download=True to download it.")))) ∧
    (w'.rootIsDir = true → decathlonTasks.contains task = true →
      w'.datasetDirExists = false →
      decathlonInit gen prev w' rootDir task sec false seed v =
        (0, .error (.runtimeError ("Cannot find dataset directory: " ++
          pathJoin rootDir task ++ ", please use download=True to download it.")))) := by
  refine ⟨?_, ?_, ?_, ?_, ?_⟩
  · intro h
    rw [mednistInit]
    simp [h]
  · intro h
    rw [decathlonInit]
    simp [h]
  · intro h hk
    have hmem : task ∉ decathlonTasks := by simpa using hk
    constructor
    · rw [decathlonInit]
      simp [h, hmem]
    · rw [List.all_eq_true]
      intro k hkmem
      have hbase : containsSeg k.data (pyReprStrList decathlonTasks).data = true := by
        fin_cases hkmem <;> decide
      simp only [unsupportedTaskMsg, String.data_append, List.append_assoc]
      apply containsSeg_append_right
      apply containsSeg_append_right
      apply containsSeg_append_right
      exact containsSeg_append_left _ _ _ hbase
  · intro h hd
    rw [mednistInit]
    simp [h, hd]
  · intro h hk hd
    have hmem : task ∈ decathlonTasks := by simpa using hk
    rw [decathlonInit]
    simp [h, hmem, hd]

/-- Witness for C6 at concrete inputs: all three validation errors fire,
and the task message lists every valid task. -/
theorem constructor_validation_witness :
    mednistInit (fun _ _ => 0) ⟨fun _ => 0, 0⟩ (⟨false, true, []⟩ : MedWorld)
        "root" "training" false 0 (1/10) (1/10) =
      (0, .error (.valueError "Root directory root_dir must be a directory.")) ∧
    decathlonInit (fun _ _ => 0) ⟨fun _ => 0, 0⟩
        (⟨true, true, ⟨[], []⟩⟩ : DecWorld String) "root" "Task99_Foo" "training"
        false 0 (1/5) =
      (0, .error (.valueError (unsupportedTaskMsg "Task99_Foo"))) ∧
    decathlonTasks.all
      (fun k => containsSeg k.data (unsupportedTaskMsg "Task99_Foo").data) = true ∧
    mednistInit (fun _ _ => 0) ⟨fun _ => 0, 0⟩ (⟨true, false, []⟩ : MedWorld)
        "root" "training" false 0 (1/10) (1/10) =
      (0, .error (.runtimeError
        "Cannot find dataset directory: root/MedNIST, please use download=True to download it.")) ∧
    decathlonInit (fun _ _ => 0) ⟨fun _ => 0, 0⟩
        (⟨true, false, ⟨[], []⟩⟩ : DecWorld String) "root" "Task09_Spleen" "training"
        false 0 (1/5) =
      (0, .error (.runtimeError
        "Cannot find dataset directory: root/Task09_Spleen, please use download=True to download it.")) :=
  have H1 := constructor_validation (α := String) (fun _ _ => 0) ⟨fun _ => 0, 0⟩
    (⟨false, true, []⟩ : MedWorld) (⟨true, true, ⟨[], []⟩⟩ : DecWorld String)
    "root" "Task99_Foo" "training" false 0 (1/5) (1/10)
  have H2 := constructor_validation (α := String) (fun _ _ => 0) ⟨fun _ => 0, 0⟩
    (⟨true, false, []⟩ : MedWorld) (⟨true, false, ⟨[], []⟩⟩ : DecWorld String)
    "root" "Task09_Spleen" "training" false 0 (1/5) (1/10)
  ⟨H1.1 rfl, (H1.2.2.1 rfl (by decide)).1, (H1.2.2.1 rfl (by decide)).2,
   H2.2.2.2.1 rfl rfl, H2.2.2.2.2 rfl (by decide) rfl⟩

/-- C8 counterexample: with download=True and the dataset directory already
present, the download/extraction collaborator is still invoked — once, not
zero times as the claim states. -/
theorem download_idempotence_cex :
    (mednistInit (fun _ _ => 0) ⟨fun _ => 0, 0⟩ (⟨true, true, []⟩ : MedWorld)
        "root" "training" true 0 (1/10) (1/10)).1 = 1 := rfl

/-- C8 amended: with download=True the `download_and_extract` collaborator
is invoked exactly once whether or not the dataset directory already exists
(skipping an already-downloaded archive is internal to the collaborator);
with download=False it is never invoked. -/
theorem download_call_count {α : Type} (gen : ℤ → ℕ → ℚ)
    (prev : RandomizableState) (w : MedWorld) (w' : DecWorld α)
    (rootDir task sec : String) (seed : ℤ) (v t : ℚ)
    (hroot : w.rootIsDir = true) (hroot' : w'.rootIsDir = true)
    (htask : decathlonTasks.contains task = true) :
    (mednistInit gen prev w rootDir sec true seed v t).1 = 1 ∧
    (mednistInit gen prev w rootDir sec false seed v t).1 = 0 ∧
    (decathlonInit gen prev w' rootDir task sec true seed v).1 = 1 ∧
    (decathlonInit gen prev w' rootDir task sec false seed v).1 = 0 := by
  have hmem : task ∈ decathlonTasks := by simpa using htask
  refine ⟨?_, ?_, ?_, ?_⟩
  · rw [mednistInit]
    simp [hroot]
  · rw [mednistInit]
    cases hw : w.datasetDirExists <;> simp [hroot, hw]
  · rw [decathlonInit]
    simp [hroot', hmem]
  · rw [decathlonInit]
    cases hw : w'.datasetDirExists <;> simp [hroot', hmem, hw]

/-- Witness for C8's amended theorem at concrete inputs. -/
theorem download_call_count_witness :
    (mednistInit (fun _ _ => 0) ⟨fun _ => 0, 0⟩ (⟨true, true, []⟩ : MedWorld)
        "root" "training" true 0 (1/10) (1/10)).1 = 1 ∧
    (mednistInit (fun _ _ => 0) ⟨fun _ => 0, 0⟩ (⟨true, true, []⟩ : MedWorld)
        "root" "training" false 0 (1/10) (1/10)).1 = 0 ∧
    (decathlonInit (fun _ _ => 0) ⟨fun _ => 0, 0⟩
        (⟨true, true, ⟨[], []⟩⟩ : DecWorld String) "root" "Task09_Spleen"
        "training" true 0 (1/5)).1 = 1 ∧
    (decathlonInit (fun _ _ => 0) ⟨fun _ => 0, 0⟩
        (⟨true, true, ⟨[], []⟩⟩ : DecWorld String) "root" "Task09_Spleen"
        "training" false 0 (1/5)).1 = 0 :=
  download_call_count (fun _ _ => 0) ⟨fun _ => 0, 0⟩ (⟨true, true, []⟩ : MedWorld)
    (⟨true, true, ⟨[], []⟩⟩ : DecWorld String) "root" "Task09_Spleen" "training"
    0 (1/10) (1/10) rfl rfl (by decide)

/-- C9 counterexample: for `val_frac = 1/2` and `test_frac = -3/10` — a
"fraction value whatsoever" — the candidate with draw `3/10` is kept for
BOTH training and validation, so the sections are not pairwise disjoint for
all fraction values. -/
theorem fraction_disjoint_cex :
    medSplitFrom "training" (1/2) (-(3/10)) (fun _ => (3 : ℚ)/10) ["x"] 0 =
      .ok (["x"], 1) ∧
    medSplitFrom "validation" (1/2) (-(3/10)) (fun _ => (3 : ℚ)/10) ["x"] 0 =
      .ok (["x"], 1) := by
  constructor
  · rw [medSplitFrom_training]
    norm_num [List.enumFrom, List.filter_cons]
  · rw [medSplitFrom_validation]
    norm_num [List.enumFrom, List.filter_cons]

/-- C9 amended: the split loop succeeds for every fraction values
(including `val_frac + test_frac ≥ 1`) on each valid section; a candidate
whose draw falls in no section's interval is kept by no section (vacuously
so — no draw value can fall outside all three intervals); and the sections
are pairwise disjoint provided `test_frac ≥ 0` (with a negative `test_frac`
they can overlap, as the counterexample shows). -/
theorem mednist_fraction_invariant {α : Type} (xs : List α) (v t : ℚ)
    (R : ℕ → ℚ) (ht : 0 ≤ t) :
    (isOkE (medSplitFrom "training" v t R xs 0) = true ∧
     isOkE (medSplitFrom "validation" v t R xs 0) = true ∧
     isOkE (medSplitFrom "test" v t R xs 0) = true) ∧
    (∀ p : ℕ × α, inNoInterval v t (R p.1) = true →
      p ∉ xs.enum.filter (fun q => decide (v + t ≤ R q.1)) ∧
      p ∉ xs.enum.filter (fun q => decide (R q.1 < v)) ∧
      p ∉ xs.enum.filter (fun q => decide (v ≤ R q.1 ∧ R q.1 < v + t))) ∧
    (∀ i : ℕ, sectionOverlap v t (R i) = false) := by
  refine ⟨⟨?_, ?_, ?_⟩, ?_, ?_⟩
  · rw [medSplitFrom_training]; rfl
  · rw [medSplitFrom_validation]; rfl
  · rw [medSplitFrom_test]; rfl
  · intro p hp
    exfalso
    simp only [inNoInterval, Bool.and_eq_true, Bool.not_eq_true',
      decide_eq_false_iff_not] at hp
    obtain ⟨⟨h1, h2⟩, h3⟩ := hp
    exact h1 (not_lt.mp (not_and.mp h3 (not_lt.mp h2)))
  · intro i
    rcases lt_or_le (R i) v with h | h
    · have hA : ¬ (v + t ≤ R i) := by linarith
      have hC : ¬ (v ≤ R i ∧ R i < v + t) := fun hc => absurd h (not_lt.mpr hc.1)
      simp [sectionOverlap, hA, hC]
    · have hB : ¬ (R i < v) := not_lt.mpr h
      by_cases hd : v + t ≤ R i
      · have hE : ¬ (v ≤ R i ∧ R i < v + t) := fun hc => absurd hd (not_le.mpr hc.2)
        simp [sectionOverlap, hB, hE]
      · simp [sectionOverlap, hB, hd]

/-- Witness for C9's amended theorem: fractions `7/10 + 7/10 ≥ 1`, draw
`1/2` — the loop succeeds and no overlap occurs. -/
theorem mednist_fraction_invariant_witness :
    isOkE (medSplitFrom "training" (7/10) (7/10) (fun _ => (1 : ℚ)/2) ["x"] 0)
        = true ∧
    isOkE (medSplitFrom "validation" (7/10) (7/10) (fun _ => (1 : ℚ)/2) ["x"] 0)
        = true ∧
    isOkE (medSplitFrom "test" (7/10) (7/10) (fun _ => (1 : ℚ)/2) ["x"] 0)
        = true ∧
    sectionOverlap (7/10) (7/10) ((1 : ℚ)/2) = false :=
  have H := mednist_fraction_invariant ["x"] (7/10) (7/10) (fun _ => (1 : ℚ)/2)
    (by norm_num)
  ⟨H.1.1, H.1.2.1, H.1.2.2, H.2.2 0⟩

/-- Witness for C7: the class-name assignment is unchanged when the same
three subdirectories are listed in a different order. -/
theorem mednist_list_builder_witness :
    mednistClassNames
        [⟨"b", true, ["b1.png"]⟩, ⟨"a", true, ["a1.png", "a2.png"]⟩,
         ⟨"c", true, ["c1.png"]⟩] =
      mednistClassNames
        [⟨"c", true, ["c1.png"]⟩, ⟨"b", true, ["b1.png"]⟩,
         ⟨"a", true, ["a1.png", "a2.png"]⟩] :=
  (mednist_list_builder "root"
    [⟨"b", true, ["b1.png"]⟩, ⟨"a", true, ["a1.png", "a2.png"]⟩,
     ⟨"c", true, ["c1.png"]⟩]
    [⟨"c", true, ["c1.png"]⟩, ⟨"b", true, ["b1.png"]⟩,
     ⟨"a", true, ["a1.png", "a2.png"]⟩] (by decide)).2.2.2.1

end Monai
